import Mathlib

/-!
Todo service (`main.go`): store operations and HTTP handlers

A shallow embedding of `main.go`.

* The table `todo` behind `a.db` is a list of rows in rowid order; every method of
  `app` that touches the database takes the table and, when it may write, returns
  the table it leaves.
* Go's `(value, error)` results are pairs whose error component is an `Option`
  (`none` is `nil`); a Go slice result is an `Option (List _)` (`none` is the `nil`
  slice).
* `log.Fatal` ends the process: functions that may call it return an `Outcome`.
* The SQLite engine is modelled on the five statement texts that occur in `main.go`.
* Column `done` is declared `int default (0)` without `not null`: a row may hold
  NULL or a text there, and `rows.Scan` into a Go `int` then fails.
* A `http.ResponseWriter` is the list of `respondWithJSON` calls made on it.
-/

set_option linter.unusedVariables false

namespace TodoApp

/-! ## Data model -/

/-- The struct `Todo` of `main.go`. -/
structure Todo where
  ID : Int
  Task : String
  Done : Bool
deriving DecidableEq, Repr

/-- The struct `NewTodo` of `main.go`. -/
structure NewTodo where
  Task : String
deriving DecidableEq, Repr

/-- A value held in column `done int default (0)`: the column has no `not null`
and SQLite types values, not columns, so a row may hold NULL, an integer or a
text there (the storage classes REAL and BLOB are left out). -/
inductive Value where
  | null
  | integer (n : Int)
  | text (s : String)
deriving DecidableEq, Repr

/-- One row of the table `todo (id integer primary key, task string not null,
done int default (0))`: the rowid, the text `Scan` reads from column `task`
(the column is `not null`, and every value that is not NULL converts to a Go
`string`), and the value held in column `done`. -/
structure Row where
  id : Int
  task : String
  done : Value
deriving DecidableEq, Repr

/-- The rows of the table `todo`, in rowid order (the order of a full table scan). -/
abbrev Table := List Row

/-- Error values that reach the program: an error of the SQLite driver (its
`Error()` is the engine's message), an error of `database/sql` itself, an error
of the JSON decoder, and an error built by `fmt.Errorf`. -/
inductive GoError where
  | sqlite (msg : String)
  | sql (msg : String)
  | json (msg : String)
  | errorf (msg : String)
deriving DecidableEq, Repr

/-- The method `Error()` of an error value. -/
def GoError.Error : GoError → String
  | .sqlite msg => msg
  | .sql msg => msg
  | .json msg => msg
  | .errorf msg => msg

/-- A computation that either returns or ends the process through `log.Fatal`. -/
inductive Outcome (α : Type) where
  | returned (a : α)
  | fatal (err : GoError)
deriving DecidableEq, Repr

/-! ## `strconv` -/

/-- The errors of `strconv.Atoi`. -/
inductive NumError where
  | ErrSyntax
  | ErrRange
deriving DecidableEq, Repr

/-- The digit loop of `strconv.ParseUint` in base 10 with 64 bits: characters are
read in order; one that is not a decimal digit is a syntax error, and a value
that no longer fits 64 bits is a range error. -/
def parseDigits : List Char → Nat → Except NumError Nat
  | [], n => .ok n
  | c :: cs, n =>
    if c.isDigit then
      if n * 10 + (c.toNat - 48) < 18446744073709551616 then
        parseDigits cs (n * 10 + (c.toNat - 48))
      else .error .ErrRange
    else .error .ErrSyntax

/-- The function `strconv.Atoi` on a 64-bit platform: an optional sign `+` or `-`
followed by at least one decimal digit, the value within the range of `int`. -/
def Atoi (s : String) : Except NumError Int :=
  let (neg, digits) :=
    match s.toList with
    | '-' :: cs => (true, cs)
    | '+' :: cs => (false, cs)
    | cs => (false, cs)
  match digits with
  | [] => .error .ErrSyntax
  | _ =>
    match parseDigits digits 0 with
    | .error e => .error e
    | .ok n =>
      if neg then
        if n ≤ 9223372036854775808 then .ok (-(n : Int)) else .error .ErrRange
      else
        if n ≤ 9223372036854775807 then .ok (n : Int) else .error .ErrRange

/-! ## The SQLite engine on the statements of `main.go` -/

/-- The statement texts `main.go` gives to `a.db.Query`. -/
inductive Select where
  | idTaskDone
  | idTaskGet
deriving DecidableEq, Repr

/-- The text of each query, as written in `main.go`. -/
def Select.text : Select → String
  | .idTaskDone => "select id, task, done from todo;"
  | .idTaskGet => "select id, task, get from todo;"

/-- The statement texts `main.go` gives to `a.db.Prepare`. -/
inductive Sql where
  | createTodo
  | insertTask
  | updateInto
deriving DecidableEq, Repr

/-- The text of each statement, as written in `main.go`. -/
def Sql.text : Sql → String
  | .createTodo =>
    "create table if not exists todo (id integer primary key, task string not null, done int default (0));"
  | .insertTask => "insert into todo (task) values (?)"
  | .updateInto => "update into todo (task) values(?)"

/-- A successfully prepared statement (`*sql.Stmt`). -/
inductive Stmt where
  | createTodo
  | insertTask
deriving DecidableEq, Repr

/-- The call `a.db.Prepare(text)`: SQLite compiles the statement. The text of
`updateInto` is not an UPDATE statement of SQL (after `update` the grammar wants
a table name and `set`), and the engine rejects it at the word `into`. -/
def prepare : Sql → Except GoError Stmt
  | .createTodo => .ok .createTodo
  | .insertTask => .ok .insertTask
  | .updateInto => .error (.sqlite "near \"into\": syntax error")

/-- A value bound to a `?` placeholder. -/
inductive Arg where
  | int (n : Int)
  | text (s : String)
deriving DecidableEq, Repr

/-- The result of `Exec` (`sql.Result`). -/
structure Result where
  lastInsertId : Int
  rowsAffected : Int
deriving DecidableEq, Repr

/-- The method `LastInsertId()` of the driver's result: it never fails. -/
def Result.LastInsertId (res : Result) : Int × Option GoError :=
  (res.lastInsertId, none)

/-- The largest rowid SQLite can assign: `2^63 - 1`. -/
def maxRowid : Int := 9223372036854775807

/-- The largest rowid present in the table, if any. -/
def largestRowid : Table → Option Int
  | [] => none
  | r :: rest =>
    match largestRowid rest with
    | none => some r.id
    | some m => some (max r.id m)

/-- The rowid SQLite gives to a row inserted without an explicit id: 1 in an
empty table, otherwise one more than the largest rowid present. When the largest
rowid is `maxRowid` the engine looks for a free rowid at random and reports
`database or disk is full` when it finds none; the model takes that result, so
it follows the engine only on tables whose largest rowid is below `maxRowid`
(`HasRoom`). -/
def nextRowid (t : Table) : Except GoError Int :=
  match largestRowid t with
  | none => .ok 1
  | some m =>
    if m < maxRowid then .ok (m + 1) else .error (.sqlite "database or disk is full")

/-- The number of `?` placeholders of a prepared statement. -/
def Stmt.numInput : Stmt → Nat
  | .createTodo => 0
  | .insertTask => 1

/-- The text a bound value has when read back from column `task` into a Go
`string`. A bound text is kept as it is unless it is a numeric literal, which the
column's declared type `string` (NUMERIC affinity) would store as a number; the
only text `main.go` binds is "dummy task 1". -/
def Arg.asTask : Arg → String
  | .int n => toString n
  | .text s => s

/-- The call `statement.Exec(args...)`. `database/sql` rejects a call whose
number of arguments differs from the number of placeholders. `createTodo` leaves
an existing table as it is; `insertTask` adds one row holding the bound value,
with the next rowid and the default `done = 0`. -/
def exec (statement : Stmt) (args : List Arg) (t : Table) : Except GoError (Result × Table) :=
  if args.length ≠ statement.numInput then
    .error (.sql ("sql: expected " ++ toString statement.numInput ++ " arguments, got "
      ++ toString args.length))
  else
    match statement, args with
    | .insertTask, [v] =>
      match nextRowid t with
      | .error err => .error err
      | .ok id => .ok (⟨id, 1⟩, t ++ [⟨id, v.asTask, .integer 0⟩])
    | _, _ => .ok (⟨0, 0⟩, t)

/-- The call `a.db.Query(text)`: SQLite compiles the query and runs it.
`idTaskDone` has no WHERE clause and yields every row of `todo`, in rowid order;
`idTaskGet` names a column `get`, which the table does not have, and is
rejected. -/
def query (q : Select) (t : Table) : Except GoError (List Row) :=
  match q with
  | .idTaskDone => .ok t
  | .idTaskGet => .error (.sqlite "no such column: get")

/-- The reasons `rows.Scan` fails on column `done`: the value is NULL
(`converting NULL to int is unsupported`), or it is a text that
`strconv.ParseInt` refuses. -/
inductive ScanError where
  | null
  | notInt (e : NumError)
deriving DecidableEq, Repr

/-- The conversion `rows.Scan` makes of the value of column `done` into the Go
variable `done int`: NULL is refused, an integer is taken as it is, and a text
goes through `strconv.ParseInt(s, 10, 64)`, which is what `Atoi` computes. -/
def scanInt : Value → Except ScanError Int
  | .null => .error .null
  | .integer n => .ok n
  | .text s =>
    match Atoi s with
    | .ok n => .ok n
    | .error e => .error (.notInt e)

/-- The call `rows.Scan(&id, &task, &done)` on one row of the result: the rowid
converts to `int` and the task to `string`; the call fails when the value of
column `done` does not convert to `int`. -/
def scan (r : Row) : Except ScanError (Int × String × Int) :=
  match scanInt r.done with
  | .error err => .error err
  | .ok done => .ok (r.id, r.task, done)

/-! ## The store operations of `main.go` -/

/-- The loop `for rows.Next() { ... }` of `getAll` and `getTodo`: a row whose
`Scan` fails is logged and skipped, any other row is appended to `tasks` with
`Done = false` when its `done` is 0 and `Done = true` otherwise. -/
def collect : List Row → List Todo → List Todo
  | [], tasks => tasks
  | r :: rows, tasks =>
    match scan r with
    | .error _ => collect rows tasks
    | .ok (id, task, done) =>
      if done = 0 then collect rows (tasks ++ [⟨id, task, false⟩])
      else collect rows (tasks ++ [⟨id, task, true⟩])

/-- The method `app.getAll`. -/
def getAll (t : Table) : Option (List Todo) × Option GoError :=
  let tasks : List Todo := []
  match query .idTaskDone t with
  | .error err => (none, some err)
  | .ok rows => (some (collect rows tasks), none)

/-- The method `app.getTodo`: `taskID` does not occur in its body. -/
def getTodo (taskID : Int) (t : Table) : Option (List Todo) × Option GoError :=
  let tasks : List Todo := []
  match query .idTaskGet t with
  | .error err => (none, some err)
  | .ok rows => (some (collect rows tasks), none)

/-- The method `app.addTodo`: the text bound to the placeholder is the literal
"dummy task 1" and the id returned is the literal 0; `task` does not occur in
its body. The result is the returned pair and the table left behind. -/
def addTodo (task : String) (t : Table) : Outcome ((Int × Option GoError) × Table) :=
  match prepare .insertTask with
  | .error err => .fatal err
  | .ok statement =>
    match exec statement [.text "dummy task 1"] t with
    | .error err => .fatal err
    | .ok (res, t1) =>
      match res.LastInsertId with
      | (lastId, some err) => .fatal err
      | (lastId, none) => .returned ((0, none), t1)

/-- The method `app.done`: the returned error and the table left behind. -/
def done (taskID : Int) (t : Table) : Option GoError × Table :=
  match prepare .updateInto with
  | .error err => (some err, t)
  | .ok statement =>
    match exec statement [.int taskID] t with
    | .error err => (some err, t)
    | .ok (_, t1) => (none, t1)

/-! ## The HTTP handlers -/

/-- The status codes of `net/http` that `main.go` uses. -/
def StatusOK : Nat := 200

/-- The constant `http.StatusBadRequest`. -/
def StatusBadRequest : Nat := 400

/-- The constant `http.StatusNotFound`, which `main.go` never uses. -/
def StatusNotFound : Nat := 404

/-- The constant `http.StatusInternalServerError`. -/
def StatusInternalServerError : Nat := 500

/-- The Go values `main.go` passes to `respondWithJSON` as `payload`:
`map[string]string{"error": message}`, a `Todo`, a `[]Todo` and a `string`. -/
inductive Payload where
  | errorMap (message : String)
  | todo (t : Todo)
  | todos (ts : Option (List Todo))
  | str (s : String)
deriving DecidableEq, Repr

/-- One call of `respondWithJSON`: the code given to `w.WriteHeader` and the
value whose JSON encoding is given to `w.Write`. -/
structure Response where
  code : Nat
  payload : Payload
deriving DecidableEq, Repr

/-- The calls of `respondWithJSON` made on a `http.ResponseWriter`, in order. The
client sees the status of the first call (a later `WriteHeader` is ignored) and
the bodies of all calls, one after the other. -/
abbrev ResponseWriter := List Response

/-- The function `respondWithJSON`. -/
def respondWithJSON (w : ResponseWriter) (code : Nat) (payload : Payload) : ResponseWriter :=
  w ++ [⟨code, payload⟩]

/-- The function `respondWithError`. -/
def respondWithError (w : ResponseWriter) (code : Nat) (message : String) : ResponseWriter :=
  respondWithJSON w code (.errorMap message)

/-- The method `app.handleGetAllTodos`. -/
def handleGetAllTodos (w : ResponseWriter) (t : Table) : ResponseWriter :=
  match getAll t with
  | (_, some err) => respondWithError w StatusInternalServerError err.Error
  | (tasks, none) => respondWithJSON w StatusOK (.todos tasks)

/-- The method `app.handleAddTodo`. `decoded` is the result of
`decoder.Decode(&task)` on the request body: the error, or the `NewTodo` read (a
field absent from the body keeps its zero value, so the body `{}` gives
`Task = ""`). -/
def handleAddTodo (decoded : Except GoError NewTodo) (w : ResponseWriter) (t : Table) :
    Outcome (ResponseWriter × Table) :=
  match decoded with
  | .error _ => .returned (respondWithError w StatusBadRequest "Invalid request payload", t)
  | .ok task =>
    match addTodo task.Task t with
    | .fatal err => .fatal err
    | .returned ((id, some err), t1) =>
      .returned (respondWithError w StatusInternalServerError err.Error, t1)
    | .returned ((id, none), t1) =>
      .returned (respondWithJSON w StatusOK (.todo ⟨id, task.Task, false⟩), t1)

/-- The method `app.handleGetTodo`; `id` is the path variable `mux.Vars(r)["id"]`. -/
def handleGetTodo (id : String) (w : ResponseWriter) (t : Table) : ResponseWriter :=
  match Atoi id with
  | .error _ => respondWithError w StatusBadRequest "Invalid Task Id, must be integer"
  | .ok n =>
    match getTodo n t with
    | (_, some err) => respondWithError w StatusInternalServerError err.Error
    | (todos, none) => respondWithJSON w StatusOK (.todos todos)

/-- The method `app.handleTodoDone`; `id` is the path variable
`mux.Vars(r)["id"]`. The branch for a failed `done` has no `return`: the call of
`respondWithJSON` after it is made in either case. -/
def handleTodoDone (id : String) (w : ResponseWriter) (t : Table) : ResponseWriter × Table :=
  match Atoi id with
  | .error _ => (respondWithError w StatusBadRequest "Invalid Task Id, must be integer", t)
  | .ok n =>
    match done n t with
    | (err, t1) =>
      let w1 :=
        match err with
        | some e => respondWithError w StatusInternalServerError e.Error
        | none => w
      (respondWithJSON w1 StatusOK (.str ("marking todo = " ++ toString n ++ ", as done")), t1)

/-! ## Construction of the app -/

/-- The database files, by path, with the table `todo` each of them holds. -/
abbrev Files := List (String × Table)

/-- The table of the database file at `path`, if the file exists. -/
def Files.find (fs : Files) (path : String) : Option Table :=
  match fs with
  | [] => none
  | (p, t) :: rest => if p = path then some t else Files.find rest path

/-- The handlers of `main.go`. -/
inductive Handler where
  | handleGetAllTodos
  | handleAddTodo
  | handleGetTodo
  | handleTodoDone
deriving DecidableEq, Repr

/-- A route of the router: path template, method and handler. -/
structure Route where
  path : String
  method : String
  handler : Handler
deriving DecidableEq, Repr

/-- The struct `app`: `db` is the location the database handle was opened with
(`none` before `sql.Open`), `router` the registered routes. -/
structure App where
  db : Option String := none
  router : List Route := []
deriving DecidableEq, Repr

/-- The call `sql.Open(driverName, dataSourceName)`: it only checks that the
driver is registered (the import of `go-sqlite3` registers "sqlite3") and keeps
the location in the handle; the file is opened at the first statement. -/
def sqlOpen (driverName dataSourceName : String) : Except GoError String :=
  if driverName = "sqlite3" then .ok dataSourceName
  else .error (.sql ("sql: unknown driver \"" ++ driverName ++ "\" (forgotten import?)"))

/-- The method `app.initializeDb`: `sql.Open` records `dbPath` in the handle;
preparing and executing `Sql.createTodo` opens the file at that location,
creating it when absent, and creates the table `todo` when the file has none.
The model covers locations the process can open or create; for any other the
driver reports `unable to open database file` and the method returns it. -/
def initializeDb (a : App) (dbPath : String) (fs : Files) : Option GoError × App × Files :=
  match sqlOpen "sqlite3" dbPath with
  | .error err => (some err, a, fs)
  | .ok db =>
    let a1 : App := { a with db := some db }
    match prepare .createTodo with
    | .error err => (some err, a1, fs)
    | .ok statement =>
      match Files.find fs db with
      | some t =>
        match exec statement [] t with
        | .error err => (some err, a1, fs)
        | .ok _ => (none, a1, fs)
      | none =>
        match exec statement [] [] with
        | .error err => (some err, a1, fs ++ [(db, [])])
        | .ok (_, t1) => (none, a1, fs ++ [(db, t1)])

/-- The method `app.initializeRoutes`. -/
def initializeRoutes (a : App) : App :=
  { a with router :=
      [⟨"/todos", "GET", .handleGetAllTodos⟩,
       ⟨"/todo", "POST", .handleAddTodo⟩,
       ⟨"/todo/{id}", "GET", .handleGetTodo⟩,
       ⟨"/todo/{id}", "PUT", .handleTodoDone⟩] }

/-- The function `NewApp`: the location given to `initializeDb` is the literal
"./todo.db"; `dbPath` does not occur in its body. -/
def NewApp (dbPath : String) (fs : Files) : (Option App × Option GoError) × Files :=
  let a : App := {}
  match initializeDb a "./todo.db" fs with
  | (some err, _, fs1) =>
    ((none, some (.errorf ("Could not initialize database: " ++ err.Error))), fs1)
  | (none, a1, fs1) => ((some (initializeRoutes a1), none), fs1)

/-! ## Store states -/

/-- The rows are in strictly ascending order of id: ids are unique (primary key)
and the table is kept in rowid order. -/
def Ascending (t : Table) : Prop :=
  t.Pairwise (fun a b => a.id < b.id)

instance (t : Table) : Decidable (Ascending t) := by
  unfold Ascending; infer_instance

/-- Every rowid of the table is below the largest rowid SQLite can assign. -/
def HasRoom (t : Table) : Prop :=
  ∀ r ∈ t, r.id < maxRowid

instance (t : Table) : Decidable (HasRoom t) := by
  unfold HasRoom; infer_instance

/-- Whether `rows.Scan` succeeds on the row. -/
def Row.scans (r : Row) : Bool :=
  match scan r with
  | .ok _ => true
  | .error _ => false

/-- The `Todo` the row loop appends for a row, `none` for a row it skips. -/
def Row.toTodo? (r : Row) : Option Todo :=
  match scan r with
  | .error _ => none
  | .ok (id, task, done) => some ⟨id, task, decide (done ≠ 0)⟩

/-- The outcome of calling `addTodo` once for each description, in order,
starting from table `t`; the process ends at the first call that ends it. -/
def addEach : List String → Table → Outcome Table
  | [], t => .returned t
  | d :: ds, t =>
    match addTodo d t with
    | .fatal err => .fatal err
    | .returned (_, t1) => addEach ds t1

/-- The three rows `populateTestDb` of `main_test.go` inserts into an empty table. -/
def testRows : Table :=
  [⟨1, "Dummy Task 1", .integer 0⟩, ⟨2, "Dummy Task 2", .integer 0⟩,
   ⟨3, "Dummy Task 3", .integer 0⟩]

/-- A table with four rows, two of which hold a value in column `done` that is
not an integer: NULL in row 2 and the text "abc" in row 3. -/
def mixedRows : Table :=
  [⟨1, "a", .integer 0⟩, ⟨2, "b", .null⟩, ⟨3, "c", .text "abc"⟩, ⟨4, "d", .integer 1⟩]

/-! ## Lemmas on the engine and the row loop -/

theorem collect_eq_append_filterMap (rows : List Row) (tasks : List Todo) :
    collect rows tasks = tasks ++ rows.filterMap Row.toTodo? := by
  induction rows generalizing tasks with
  | nil => simp [collect]
  | cons r rows ih =>
    unfold collect
    cases hs : scan r with
    | error e => simp [Row.toTodo?, hs, ih]
    | ok v =>
      obtain ⟨id, task, done⟩ := v
      by_cases h : done = 0
      · simp [Row.toTodo?, hs, ih, h]
      · simp [Row.toTodo?, hs, ih, h]

theorem getAll_eq_filterMap (t : Table) :
    getAll t = (some (t.filterMap Row.toTodo?), none) := by
  simp [getAll, query, collect_eq_append_filterMap]

theorem toTodo?_of_scans (r : Row) (h : r.scans = true) :
    ∃ d, scanInt r.done = .ok d ∧ Row.toTodo? r = some ⟨r.id, r.task, decide (d ≠ 0)⟩ := by
  unfold Row.scans scan at h
  unfold Row.toTodo? scan
  cases hd : scanInt r.done with
  | error e => simp [hd] at h
  | ok d => exact ⟨d, rfl, rfl⟩

theorem toTodo?_of_not_scans (r : Row) (h : r.scans = false) : Row.toTodo? r = none := by
  unfold Row.scans scan at h
  unfold Row.toTodo? scan
  cases hd : scanInt r.done with
  | error e => rfl
  | ok d => simp [hd] at h

theorem forall₂_filter_filterMap (t : Table) :
    List.Forall₂
      (fun r td => ∃ d, scanInt r.done = .ok d ∧
        td.ID = r.id ∧ td.Task = r.task ∧ (td.Done = false ↔ d = 0))
      (t.filter Row.scans) (t.filterMap Row.toTodo?) := by
  induction t with
  | nil => simp
  | cons r rest ih =>
    cases hs : r.scans with
    | false =>
      rw [List.filter_cons_of_neg (by simp [hs]),
        List.filterMap_cons_none (toTodo?_of_not_scans r hs)]
      exact ih
    | true =>
      obtain ⟨d, hd, htd⟩ := toTodo?_of_scans r hs
      rw [List.filter_cons_of_pos (by simp [hs]), List.filterMap_cons_some htd]
      refine List.Forall₂.cons ⟨d, hd, rfl, rfl, ?_⟩ ih
      simp

theorem toTodo?_id (r : Row) (td : Todo) (h : Row.toTodo? r = some td) : td.ID = r.id := by
  unfold Row.toTodo? scan at h
  cases hd : scanInt r.done with
  | error e => simp [hd] at h
  | ok d =>
    simp [hd] at h
    rw [← h]

theorem pairwise_filterMap_of_ascending (t : Table) (h : Ascending t) :
    (t.filterMap Row.toTodo?).Pairwise (fun a b => a.ID < b.ID) := by
  rw [List.pairwise_filterMap]
  refine List.Pairwise.imp ?_ h
  intro r r1 hlt td htd td1 htd1
  rw [toTodo?_id r td (by simpa using htd), toTodo?_id r1 td1 (by simpa using htd1)]
  exact hlt

theorem length_filterMap_of_scans (t : Table) (h : ∀ r ∈ t, r.scans = true) :
    (t.filterMap Row.toTodo?).length = t.length := by
  induction t with
  | nil => rfl
  | cons r rest ih =>
    obtain ⟨d, _, htd⟩ := toTodo?_of_scans r (h r (by simp))
    rw [List.filterMap_cons_some htd]
    simp [ih (fun x hx => h x (List.mem_cons_of_mem _ hx))]

theorem largestRowid_none (t : Table) (h : largestRowid t = none) : t = [] := by
  cases t with
  | nil => rfl
  | cons r rest =>
    unfold largestRowid at h
    split at h <;> simp at h

theorem largestRowid_ge (t : Table) (m : Int) (h : largestRowid t = some m) :
    ∀ r ∈ t, r.id ≤ m := by
  induction t generalizing m with
  | nil => simp
  | cons r rest ih =>
    unfold largestRowid at h
    split at h
    · rename_i hn
      have hrest := largestRowid_none rest hn
      subst hrest
      simp at h
      simp [h]
    · rename_i k hk
      simp at h
      intro x hx
      rcases List.mem_cons.mp hx with hx | hx
      · subst hx; rw [← h]; exact le_max_left _ _
      · have := ih k hk x hx
        rw [← h]; exact le_trans this (le_max_right _ _)

theorem largestRowid_mem (t : Table) (m : Int) (h : largestRowid t = some m) :
    ∃ r ∈ t, r.id = m := by
  induction t generalizing m with
  | nil => simp [largestRowid] at h
  | cons r rest ih =>
    unfold largestRowid at h
    split at h
    · simp at h
      exact ⟨r, by simp, h⟩
    · rename_i k hk
      simp at h
      rcases max_cases r.id k with ⟨hm, _⟩ | ⟨hm, _⟩
      · exact ⟨r, by simp, by rw [← h, hm]⟩
      · obtain ⟨x, hx, hxk⟩ := ih k hk
        exact ⟨x, List.mem_cons_of_mem _ hx, by rw [← h, hm, hxk]⟩

theorem nextRowid_of_hasRoom (t : Table) (h : HasRoom t) :
    ∃ id, nextRowid t = .ok id ∧ ∀ r ∈ t, r.id < id := by
  unfold nextRowid
  cases hl : largestRowid t with
  | none =>
    have := largestRowid_none t hl
    subst this
    exact ⟨1, rfl, by simp⟩
  | some m =>
    obtain ⟨x, hx, hxm⟩ := largestRowid_mem t m hl
    have hm : m < maxRowid := by rw [← hxm]; exact h x hx
    refine ⟨m + 1, by simp [hm], ?_⟩
    intro r hr
    have := largestRowid_ge t m hl r hr
    omega

theorem addTodo_of_hasRoom (task : String) (t : Table) (h : HasRoom t) :
    ∃ id, nextRowid t = .ok id ∧ (∀ r ∈ t, r.id < id) ∧
      addTodo task t = .returned ((0, none), t ++ [⟨id, "dummy task 1", .integer 0⟩]) := by
  obtain ⟨id, hid, hlt⟩ := nextRowid_of_hasRoom t h
  refine ⟨id, hid, hlt, ?_⟩
  simp [addTodo, prepare, exec, Stmt.numInput, hid, Result.LastInsertId, Arg.asTask]

theorem ascending_append_of_lt (t : Table) (row : Row) (h : Ascending t)
    (hlt : ∀ r ∈ t, r.id < row.id) : Ascending (t ++ [row]) := by
  unfold Ascending at *
  rw [List.pairwise_append]
  refine ⟨h, by simp, ?_⟩
  intro a ha b hb
  simp at hb
  subst hb
  exact hlt a ha

theorem addTodo_preserves_ascending (task : String) (t : Table) (h : Ascending t)
    (hroom : HasRoom t) :
    ∃ res t1, addTodo task t = .returned (res, t1) ∧ Ascending t1 := by
  obtain ⟨id, _, hlt, hadd⟩ := addTodo_of_hasRoom task t hroom
  exact ⟨_, _, hadd, ascending_append_of_lt t _ h hlt⟩

theorem nextRowid_le_length (t : Table) (h : ∀ r ∈ t, r.id ≤ (t.length : Int)) (id : Int)
    (hid : nextRowid t = .ok id) : id ≤ (t.length : Int) + 1 := by
  unfold nextRowid at hid
  cases hl : largestRowid t with
  | none =>
    rw [hl] at hid
    simp at hid
    have : (1 : Int) = id := by simpa using hid
    omega
  | some m =>
    rw [hl] at hid
    obtain ⟨x, hx, hxm⟩ := largestRowid_mem t m hl
    have hx2 := h x hx
    by_cases hm : m < maxRowid
    · simp [hm] at hid
      have : m + 1 = id := by simpa using hid
      omega
    · simp [hm] at hid

theorem addEach_invariant (ds : List String) (t : Table)
    (hinv : ∀ r ∈ t, r.id ≤ (t.length : Int))
    (hasc : Ascending t) (hscan : ∀ r ∈ t, r.scans = true)
    (hlen : ((t.length + ds.length : Nat) : Int) < maxRowid) :
    ∃ t1, addEach ds t = .returned t1 ∧ t1.length = t.length + ds.length ∧
      Ascending t1 ∧ ∀ r ∈ t1, r.scans = true := by
  induction ds generalizing t with
  | nil => exact ⟨t, rfl, by simp, hasc, hscan⟩
  | cons d ds ih =>
    have hroom : HasRoom t := by
      intro r hr
      have := hinv r hr
      simp only [List.length_cons] at hlen
      unfold maxRowid at *
      omega
    obtain ⟨id, hid, hlt, hadd⟩ := addTodo_of_hasRoom d t hroom
    have hle := nextRowid_le_length t hinv id hid
    have hinv1 : ∀ r ∈ t ++ [(⟨id, "dummy task 1", .integer 0⟩ : Row)],
        r.id ≤ ((t ++ [(⟨id, "dummy task 1", .integer 0⟩ : Row)]).length : Int) := by
      intro r hr
      simp only [List.length_append, List.length_cons, List.length_nil]
      rcases List.mem_append.mp hr with hr | hr
      · have := hinv r hr
        push_cast
        omega
      · simp at hr
        subst hr
        push_cast
        simpa using hle
    have hasc1 : Ascending (t ++ [(⟨id, "dummy task 1", .integer 0⟩ : Row)]) :=
      ascending_append_of_lt t _ hasc hlt
    have hscan1 : ∀ r ∈ t ++ [(⟨id, "dummy task 1", .integer 0⟩ : Row)], r.scans = true := by
      intro r hr
      rcases List.mem_append.mp hr with hr | hr
      · exact hscan r hr
      · simp at hr
        subst hr
        rfl
    have hlen1 : (((t ++ [(⟨id, "dummy task 1", .integer 0⟩ : Row)]).length + ds.length : Nat) : Int)
        < maxRowid := by
      simp only [List.length_append, List.length_cons, List.length_nil] at hlen ⊢
      have e : t.length + (0 + 1) + ds.length = t.length + (ds.length + 1) := by omega
      rw [e]; exact hlen
    obtain ⟨t1, ht1, hl1, ha1, hs1⟩ := ih _ hinv1 hasc1 hscan1 hlen1
    refine ⟨t1, ?_, ?_, ha1, hs1⟩
    · simp [addEach, hadd, ht1]
    · simp only [List.length_append, List.length_cons, List.length_nil] at hl1 ⊢
      omega

/-! ## `addTodo` -/

/-- Claim C1, at the input `addTodo("buy milk")` on the empty table: the call
returns without error and leaves exactly one row, whose text is the literal
"dummy task 1" and not the caller's description; the `getAll` that follows
returns that one Todo, and no Todo with `Task = "buy milk"`. -/
theorem addTodo_persists_placeholder :
    addTodo "buy milk" [] = .returned ((0, none), [⟨1, "dummy task 1", .integer 0⟩]) ∧
    getAll [⟨1, "dummy task 1", .integer 0⟩] = (some [⟨1, "dummy task 1", false⟩], none) ∧
    ¬ ∃ td ∈ [(⟨1, "dummy task 1", false⟩ : Todo)], td.Task = "buy milk" := by
  decide

/-- Claim C2, at the input `addTodo("test task 1")` on the table holding rows 1,
2 and 3: the new row gets id 4, and the id the call returns is 0. -/
theorem addTodo_returns_zero :
    addTodo "test task 1" testRows
      = .returned ((0, none), testRows ++ [⟨4, "dummy task 1", .integer 0⟩]) := by
  decide

/-- Claim C6 as stated fails on the empty table: `addTodo("")` returns a nil
error, and the table it leaves holds a row where it held none. -/
theorem addTodo_empty_accepted :
    addTodo "" [] = .returned ((0, none), [⟨1, "dummy task 1", .integer 0⟩]) ∧
    ¬ ∃ id err, addTodo "" [] = .returned ((id, some err), []) := by
  have h0 : addTodo "" [] = .returned ((0, none), [⟨1, "dummy task 1", .integer 0⟩]) := by decide
  refine ⟨h0, ?_⟩
  rintro ⟨id, err, h⟩
  rw [h0] at h
  simp at h

/-- Claim C6, amended: `addTodo` does not look at its argument, so the empty
description is accepted like any other. For every table with a free next rowid,
`addTodo("")` returns a nil error and leaves the table with exactly one more
row, whose `done` is 0 and whose id no earlier row has. -/
theorem addTodo_empty_inserts (t : Table) (h : HasRoom t) :
    ∃ id row, addTodo "" t = .returned ((id, none), t ++ [row]) ∧
      row.done = .integer 0 ∧ ∀ r ∈ t, r.id ≠ row.id := by
  obtain ⟨id, _, hlt, hadd⟩ := addTodo_of_hasRoom "" t h
  refine ⟨0, ⟨id, "dummy task 1", .integer 0⟩, hadd, rfl, ?_⟩
  intro r hr
  exact ne_of_lt (hlt r hr)

/-- The amended claim C6 on the table holding rows 1, 2 and 3. -/
theorem addTodo_empty_inserts_witness :
    HasRoom testRows ∧
    ∃ id row, addTodo "" testRows = .returned ((id, none), testRows ++ [row]) ∧
      row.done = .integer 0 ∧ ∀ r ∈ testRows, r.id ≠ row.id :=
  ⟨by decide, addTodo_empty_inserts testRows (by decide)⟩

/-! ## `getTodo` -/

/-- Claim C3, at the input `getTodo(1)` on the table holding rows 1, 2 and 3:
the call returns the nil slice and the engine's error for the unknown column
`get`, not the task with id 1; the same holds for every id and every table. -/
theorem getTodo_query_rejected :
    getTodo 1 testRows = (none, some (.sqlite "no such column: get")) ∧
    ∀ (taskID : Int) (t : Table),
      getTodo taskID t = (none, some (.sqlite "no such column: get")) :=
  ⟨rfl, fun _ _ => rfl⟩

/-! ## `done` -/

/-- Claim C4, at the input `done(1)` on the table holding rows 1, 2 and 3: the
call returns the engine's syntax error and leaves row 1 with `done = 0`; the
same holds for every id and every table. -/
theorem done_statement_rejected :
    done 1 testRows = (some (.sqlite "near \"into\": syntax error"), testRows) ∧
    ∀ (taskID : Int) (t : Table),
      done taskID t = (some (.sqlite "near \"into\": syntax error"), t) :=
  ⟨rfl, fun _ _ => rfl⟩

/-- Claim C5 as stated fails on the table holding rows 1, 2 and 3: for id 999,
which no row has, the error `done` returns is the engine's error for the
statement, and it is the very error returned for id 1, which a row has. -/
theorem done_missing_id_same_error :
    (done 999 testRows).1 = some (.sqlite "near \"into\": syntax error") ∧
    (done 999 testRows).1 = (done 1 testRows).1 ∧
    (∀ r ∈ testRows, r.id ≠ 999) ∧ (∃ r ∈ testRows, r.id = 1) := by
  decide

/-- Claim C5, amended: for every table and every id that no row has, `done`
leaves the table unchanged, and the error it returns is the one it returns on
that table for any other id: there is no error kind for a missing task. -/
theorem done_missing_id_unchanged (t : Table) (taskID : Int)
    (h : ∀ r ∈ t, r.id ≠ taskID) :
    (done taskID t).2 = t ∧ ∀ other : Int, (done other t).1 = (done taskID t).1 :=
  ⟨rfl, fun _ => rfl⟩

/-- The amended claim C5 on the table holding rows 1, 2 and 3, for id 999. -/
theorem done_missing_id_unchanged_witness :
    (∀ r ∈ testRows, r.id ≠ 999) ∧
    (done 999 testRows).2 = testRows ∧
    ∀ other : Int, (done other testRows).1 = (done 999 testRows).1 :=
  ⟨by decide, done_missing_id_unchanged testRows 999 (by decide)⟩

/-! ## `getAll` -/

/-- Claim C7 as stated fails on a table of four rows of which row 2 holds NULL
and row 3 the text "abc" in column `done`: `Scan` fails on those two rows,
`getAll` logs and skips them, and it returns two Todos for the four rows. -/
theorem getAll_skips_unscanned_rows :
    getAll mixedRows = (some [⟨1, "a", false⟩, ⟨4, "d", true⟩], none) ∧
    mixedRows.length = 4 ∧
    ¬ ∃ tasks, getAll mixedRows = (some tasks, none) ∧ tasks.length = mixedRows.length := by
  have h0 : getAll mixedRows = (some [⟨1, "a", false⟩, ⟨4, "d", true⟩], none) := by decide
  refine ⟨h0, rfl, ?_⟩
  rintro ⟨tasks, h, hl⟩
  rw [h0] at h
  simp at h
  subst h
  simp [mixedRows] at hl

/-- Claim C7, amended: for every table, `getAll` returns a nil error and a
slice (not nil) with one Todo for each row on which `Scan` succeeds (the value
of column `done` reads as an integer `d`), in the order of the table scan, each
with the row's id and text and with `Done = false` exactly when `d` is 0; a row
on which `Scan` fails is skipped. For a table in ascending rowid order the
Todos are in strictly ascending order of `ID`, and `addTodo` keeps a table with
a free next rowid in that order. On the empty table the slice is empty and not
nil. After `n` calls of `addTodo` on the empty table (`n` below the largest
rowid) every call has returned, the table is in ascending rowid order, and
`getAll` returns `n` tasks in strictly ascending order of `ID`. -/
theorem getAll_lists_scanned_rows (t : Table) (ds : List String)
    (hds : (ds.length : Int) < maxRowid) :
    (∃ tasks, getAll t = (some tasks, none) ∧
      List.Forall₂
        (fun r td => ∃ d, scanInt r.done = .ok d ∧
          td.ID = r.id ∧ td.Task = r.task ∧ (td.Done = false ↔ d = 0))
        (t.filter Row.scans) tasks ∧
      (Ascending t → tasks.Pairwise (fun a b => a.ID < b.ID))) ∧
    (Ascending t → HasRoom t → ∀ d : String,
      ∃ res t1, addTodo d t = .returned (res, t1) ∧ Ascending t1) ∧
    getAll [] = (some [], none) ∧
    ∃ t1 tasks, addEach ds [] = .returned t1 ∧ Ascending t1 ∧
      getAll t1 = (some tasks, none) ∧ tasks.length = ds.length ∧
      tasks.Pairwise (fun a b => a.ID < b.ID) := by
  refine ⟨⟨t.filterMap Row.toTodo?, getAll_eq_filterMap t, forall₂_filter_filterMap t,
    pairwise_filterMap_of_ascending t⟩, ?_, rfl, ?_⟩
  · intro hasc hroom d
    exact addTodo_preserves_ascending d t hasc hroom
  · obtain ⟨t1, ht1, hl, hasc, hscan⟩ :=
      addEach_invariant ds [] (by simp) List.Pairwise.nil (by simp) (by simpa using hds)
    refine ⟨t1, t1.filterMap Row.toTodo?, ht1, hasc, getAll_eq_filterMap t1, ?_,
      pairwise_filterMap_of_ascending t1 hasc⟩
    rw [length_filterMap_of_scans t1 hscan]
    simpa using hl

/-- The amended claim C7 on the table of four rows of which two do not scan, and
for two inserts. -/
theorem getAll_lists_scanned_rows_witness :
    ((["a", "b"] : List String).length : Int) < maxRowid ∧ Ascending mixedRows ∧
    HasRoom mixedRows ∧
    ((∃ tasks, getAll mixedRows = (some tasks, none) ∧
      List.Forall₂
        (fun r td => ∃ d, scanInt r.done = .ok d ∧
          td.ID = r.id ∧ td.Task = r.task ∧ (td.Done = false ↔ d = 0))
        (mixedRows.filter Row.scans) tasks ∧
      (Ascending mixedRows → tasks.Pairwise (fun a b => a.ID < b.ID))) ∧
    (Ascending mixedRows → HasRoom mixedRows → ∀ d : String,
      ∃ res t1, addTodo d mixedRows = .returned (res, t1) ∧ Ascending t1) ∧
    getAll [] = (some [], none) ∧
    ∃ t1 tasks, addEach ["a", "b"] [] = .returned t1 ∧ Ascending t1 ∧
      getAll t1 = (some tasks, none) ∧ tasks.length = (["a", "b"] : List String).length ∧
      tasks.Pairwise (fun a b => a.ID < b.ID)) :=
  ⟨by decide, by decide, by decide,
    getAll_lists_scanned_rows mixedRows ["a", "b"] (by decide)⟩

/-! ## `handleTodoDone` -/

/-- Claim C8, at the input `PUT /todo/1` on the table holding rows 1, 2 and 3
(and `PUT /todo/999` on the empty table): `done` fails, and the handler makes
two calls of `respondWithJSON`, the first with status 500 and the error object,
the second with status 200 and the success message "marking todo = 1, as
done". The same holds for every table and every `id` that is a valid integer;
an `id` that is not gets the single response with status 400. -/
theorem handleTodoDone_success_after_error :
    handleTodoDone "1" [] testRows
      = ([⟨StatusInternalServerError, .errorMap "near \"into\": syntax error"⟩,
          ⟨StatusOK, .str "marking todo = 1, as done"⟩], testRows) ∧
    handleTodoDone "999" [] []
      = ([⟨StatusInternalServerError, .errorMap "near \"into\": syntax error"⟩,
          ⟨StatusOK, .str "marking todo = 999, as done"⟩], []) ∧
    ∀ (id : String) (t : Table),
      match Atoi id with
      | .error _ =>
        handleTodoDone id [] t
          = ([⟨StatusBadRequest, .errorMap "Invalid Task Id, must be integer"⟩], t)
      | .ok n =>
        handleTodoDone id [] t
          = ([⟨StatusInternalServerError, .errorMap "near \"into\": syntax error"⟩,
              ⟨StatusOK, .str ("marking todo = " ++ toString n ++ ", as done")⟩], t) := by
  refine ⟨by decide, by decide, ?_⟩
  intro id t
  unfold handleTodoDone
  cases hA : Atoi id with
  | error e => simp [respondWithError, respondWithJSON]
  | ok n => simp [done, prepare, respondWithError, respondWithJSON, GoError.Error]

/-! ## `handleAddTodo` -/

/-- Claim C9 as stated fails on the empty table: for a body that decodes to a
`NewTodo` with `Task = ""` (the body `{}`), the handler responds with status 200
and the table it leaves holds a row where it held none. -/
theorem handleAddTodo_empty_task_accepted :
    handleAddTodo (.ok ⟨""⟩) [] []
      = .returned ([⟨StatusOK, .todo ⟨0, "", false⟩⟩], [⟨1, "dummy task 1", .integer 0⟩]) ∧
    ¬ ∃ payload, handleAddTodo (.ok ⟨""⟩) [] []
      = .returned ([⟨StatusBadRequest, payload⟩], []) := by
  have h0 : handleAddTodo (.ok ⟨""⟩) [] []
      = .returned ([⟨StatusOK, .todo ⟨0, "", false⟩⟩], [⟨1, "dummy task 1", .integer 0⟩]) := by
    decide
  refine ⟨h0, ?_⟩
  rintro ⟨payload, h⟩
  rw [h0] at h
  simp at h

/-- Claim C9, amended: for every table with a free next rowid, a POST /todo
request whose body fails to decode gets the single response status 400 and
leaves the table unchanged; a body that decodes to a `NewTodo` with a missing
or empty `Task` is not rejected: the handler calls `addTodo`, gives the single
response status 200 with a Todo, and the table has exactly one more row. -/
theorem handleAddTodo_decode_gate (t : Table) (h : HasRoom t) (err : GoError) :
    handleAddTodo (.error err) [] t
      = .returned ([⟨StatusBadRequest, .errorMap "Invalid request payload"⟩], t) ∧
    ∃ td row, handleAddTodo (.ok ⟨""⟩) [] t
      = .returned ([⟨StatusOK, .todo td⟩], t ++ [row]) := by
  obtain ⟨id, _, _, hadd⟩ := addTodo_of_hasRoom "" t h
  refine ⟨rfl, ⟨0, "", false⟩, ⟨id, "dummy task 1", .integer 0⟩, ?_⟩
  simp [handleAddTodo, hadd, respondWithJSON]

/-- The amended claim C9 on the table holding rows 1, 2 and 3. -/
theorem handleAddTodo_decode_gate_witness :
    HasRoom testRows ∧
    handleAddTodo (.error (.json "unexpected end of JSON input")) [] testRows
      = .returned ([⟨StatusBadRequest, .errorMap "Invalid request payload"⟩], testRows) ∧
    ∃ td row, handleAddTodo (.ok ⟨""⟩) [] testRows
      = .returned ([⟨StatusOK, .todo td⟩], testRows ++ [row]) :=
  ⟨by decide,
    handleAddTodo_decode_gate testRows (by decide) (.json "unexpected end of JSON input")⟩

/-! ## `NewApp` -/

/-- Claim C10, at the input `NewApp("./todo_test.db")` with no database file
present: the location given to `initializeDb` and kept in the handle is
"./todo.db", the file created is "./todo.db", and no file exists at
"./todo_test.db"; the handle's location is "./todo.db" for every `dbPath`. -/
theorem NewApp_opens_fixed_path :
    NewApp "./todo_test.db" []
      = ((some (initializeRoutes ⟨some "./todo.db", []⟩), none), [("./todo.db", [])]) ∧
    Files.find (NewApp "./todo_test.db" []).2 "./todo_test.db" = none ∧
    ∀ (dbPath : String) (fs : Files),
      (NewApp dbPath fs).1.1.map App.db = some (some "./todo.db") := by
  refine ⟨by decide, by decide, ?_⟩
  intro dbPath fs
  unfold NewApp initializeDb
  cases hf : Files.find fs "./todo.db" <;>
    simp [sqlOpen, hf, prepare, exec, Stmt.numInput, initializeRoutes]

end TodoApp
